import Mathlib

/-!
Verification development for `gae_dashboard/sailthru_to_bigquery.py`.

The script is shallowly embedded: the two pipelines
(`_send_blast_details_to_bq`, `_send_campaign_report`) and the
command-line orchestrator become Lean functions over explicit
environments describing the remote API responses; their externally
visible effects (API calls, file writes, warehouse loads, sleeps,
temp-directory removal) are recorded as an event trace.  Python
`datetime.strptime` for the two concrete formats used by the script is
embedded at character level, following CPython `_strptime` regexes, and
`datetime` values are compared through their count of microseconds
since the proleptic-Gregorian epoch.
-/

namespace Sailthru

/-! ## Python `strptime`, for the two formats used by the script -/

/-- Numeric value of a digit character. -/
def dv (c : Char) : Nat := c.toNat - 48

/-- Python regex whitespace class for byte strings: space, tab,
linefeed, carriage return, vertical tab, form feed. -/
def isPySpace (c : Char) : Bool :=
  c = ' ' ∨ c = '\t' ∨ c = '\n' ∨ c = '\r' ∨ c = Char.ofNat 11 ∨ c = Char.ofNat 12

/-- ASCII lowercasing, as Python regex IGNORECASE does on byte strings. -/
def pyLower (c : Char) : Char :=
  if 'A' ≤ c ∧ c ≤ 'Z' then Char.ofNat (c.toNat + 32) else c

/-- Consume a maximal run of whitespace. -/
def dropPySpaces : List Char → List Char
  | c :: cs => if isPySpace c then dropPySpaces cs else c :: cs
  | [] => []

/-- Match the regex fragment a format-string blank turns into: one or
more whitespace characters. -/
def pSpaces1 : List Char → Option (List Char)
  | c :: cs => if isPySpace c then some (dropPySpaces cs) else none
  | [] => none

/-- Match one literal character. -/
def expectChar (c : Char) : List Char → Option (List Char)
  | x :: xs => if x = c then some xs else none
  | [] => none

/-- Case-insensitively match a fixed lowercase word against a prefix of
the input, returning the rest. -/
def matchCI : List Char → List Char → Option (List Char)
  | [], rest => some rest
  | p :: ps, c :: cs => if pyLower c = p then matchCI ps cs else none
  | _ :: _, [] => none

/-- First alternative (in regex alternation order) that matches,
together with its associated value. -/
def matchFirstCI : List (List Char × Nat) → List Char → Option (Nat × List Char)
  | [], _ => none
  | (p, v) :: ps, s =>
    match matchCI p s with
    | some r => some (v, r)
    | none => matchFirstCI ps s

/-- Abbreviated weekday names recognised by directive a of
`strptime` (values are ignored by the script's formats). -/
def weekdayAbbrs : List (List Char × Nat) :=
  [("mon".toList, 0), ("tue".toList, 1), ("wed".toList, 2), ("thu".toList, 3),
   ("fri".toList, 4), ("sat".toList, 5), ("sun".toList, 6)]

/-- Abbreviated month names recognised by directive b, with month
numbers. -/
def monthAbbrs : List (List Char × Nat) :=
  [("jan".toList, 1), ("feb".toList, 2), ("mar".toList, 3), ("apr".toList, 4),
   ("may".toList, 5), ("jun".toList, 6), ("jul".toList, 7), ("aug".toList, 8),
   ("sep".toList, 9), ("oct".toList, 10), ("nov".toList, 11), ("dec".toList, 12)]

/-- Full month names recognised by directive B, in CPython order after
the stable length-descending sort applied when the alternation regex is
built. -/
def monthFulls : List (List Char × Nat) :=
  [("september".toList, 9),
   ("february".toList, 2), ("november".toList, 11), ("december".toList, 12),
   ("january".toList, 1), ("october".toList, 10),
   ("august".toList, 8),
   ("march".toList, 3), ("april".toList, 4),
   ("june".toList, 6), ("july".toList, 7),
   ("may".toList, 5)]

/-- Day of month, CPython regex 3[01] or [12] digit or 0[1-9] or
[1-9]. -/
def pDay : List Char → Option (Nat × List Char)
  | c1 :: c2 :: rest =>
    if c1 = '3' ∧ (c2 = '0' ∨ c2 = '1') then some (30 + dv c2, rest)
    else if (c1 = '1' ∨ c1 = '2') ∧ c2.isDigit then some (dv c1 * 10 + dv c2, rest)
    else if c1 = '0' ∧ '1' ≤ c2 ∧ c2 ≤ '9' then some (dv c2, rest)
    else if '1' ≤ c1 ∧ c1 ≤ '9' then some (dv c1, c2 :: rest)
    else none
  | [c1] => if '1' ≤ c1 ∧ c1 ≤ '9' then some (dv c1, []) else none
  | [] => none

/-- Hour, CPython regex 2[0-3] or [0-1] digit or digit. -/
def pHour : List Char → Option (Nat × List Char)
  | c1 :: c2 :: rest =>
    if c1 = '2' ∧ '0' ≤ c2 ∧ c2 ≤ '3' then some (20 + dv c2, rest)
    else if (c1 = '0' ∨ c1 = '1') ∧ c2.isDigit then some (dv c1 * 10 + dv c2, rest)
    else if c1.isDigit then some (dv c1, c2 :: rest)
    else none
  | [c1] => if c1.isDigit then some (dv c1, []) else none
  | [] => none

/-- Minute, CPython regex [0-5] digit or digit. -/
def pMinute : List Char → Option (Nat × List Char)
  | c1 :: c2 :: rest =>
    if '0' ≤ c1 ∧ c1 ≤ '5' ∧ c2.isDigit then some (dv c1 * 10 + dv c2, rest)
    else if c1.isDigit then some (dv c1, c2 :: rest)
    else none
  | [c1] => if c1.isDigit then some (dv c1, []) else none
  | [] => none

/-- Second, CPython regex 6[0-1] or [0-5] digit or digit (leap seconds
pass the regex and are rejected later by the datetime constructor). -/
def pSecond : List Char → Option (Nat × List Char)
  | c1 :: c2 :: rest =>
    if c1 = '6' ∧ (c2 = '0' ∨ c2 = '1') then some (60 + dv c2, rest)
    else if '0' ≤ c1 ∧ c1 ≤ '5' ∧ c2.isDigit then some (dv c1 * 10 + dv c2, rest)
    else if c1.isDigit then some (dv c1, c2 :: rest)
    else none
  | [c1] => if c1.isDigit then some (dv c1, []) else none
  | [] => none

/-- Year, CPython regex: exactly four digits. -/
def pYear4 : List Char → Option (Nat × List Char)
  | a :: b :: c :: d :: r =>
    if a.isDigit ∧ b.isDigit ∧ c.isDigit ∧ d.isDigit then
      some (dv a * 1000 + dv b * 100 + dv c * 10 + dv d, r)
    else none
  | _ => none

/-- Collect up to `n` leading digits. -/
def takeDigits : Nat → List Char → List Char × List Char
  | 0, s => ([], s)
  | n + 1, c :: cs =>
    if c.isDigit then
      let (ds, r) := takeDigits n cs
      (c :: ds, r)
    else ([], c :: cs)
  | _ + 1, [] => ([], [])

/-- Microseconds, CPython directive f: one to six digits, taken
greedily, right-padded with zeros to six digits. -/
def pMicro (s : List Char) : Option (Nat × List Char) :=
  let (ds, r) := takeDigits 6 s
  if ds.isEmpty then none
  else some ((ds.foldl (fun a c => a * 10 + dv c) 0) * 10 ^ (6 - ds.length), r)

/-- Gregorian leap year, as `calendar.isleap` / `datetime`. -/
def isLeapYear (y : Nat) : Bool :=
  y % 4 = 0 && (y % 100 != 0 || y % 400 = 0)

/-- Length of a month. -/
def daysInMonth (y m : Nat) : Nat :=
  if m = 2 then (if isLeapYear y then 29 else 28)
  else if m = 4 ∨ m = 6 ∨ m = 9 ∨ m = 11 then 30
  else 31

/-- Days in year `y` before the first of month `m`. -/
def daysBeforeMonth (y m : Nat) : Nat :=
  (List.range (m - 1)).foldl (fun a i => a + daysInMonth y (i + 1)) 0

/-- Proleptic-Gregorian ordinal of a date, as Python
`datetime.date.toordinal` (January 1 of year 1 is day 1). -/
def toOrdinal (y m d : Nat) : Nat :=
  365 * (y - 1) + (y - 1) / 4 - (y - 1) / 100 + (y - 1) / 400 + daysBeforeMonth y m + d

/-- A naive Python `datetime.datetime` value as produced by
`strptime`. -/
structure PyDateTime where
  year : Nat
  month : Nat
  day : Nat
  hour : Nat
  minute : Nat
  second : Nat
  microsecond : Nat
  deriving DecidableEq, Repr

/-- Microseconds since the proleptic-Gregorian epoch; naive `datetime`
comparison and `timedelta` arithmetic agree with integer arithmetic on
this count. -/
def PyDateTime.toMicros (dt : PyDateTime) : Int :=
  (toOrdinal dt.year dt.month dt.day : Int) * 86400000000
    + (dt.hour : Int) * 3600000000 + (dt.minute : Int) * 60000000
    + (dt.second : Int) * 1000000 + (dt.microsecond : Int)

/-- Microsecond count of `datetime.min`, January 1 of year 1; a
`timedelta` subtraction falling below it raises OverflowError. -/
def pyDatetimeMinMicros : Int := 86400000000

/-- Match the date half of the blast timestamp format: weekday
abbreviation, comma, blank, day, blank, month abbreviation, blank,
four-digit year.  Yields year, month, day and the rest of the input. -/
def pstDate (cs : List Char) : Option (Nat × Nat × Nat × List Char) :=
  match matchFirstCI weekdayAbbrs cs with
  | none => none
  | some (_, r0) =>
    match expectChar ',' r0 with
    | none => none
    | some r1 =>
      match pSpaces1 r1 with
      | none => none
      | some r2 =>
        match pDay r2 with
        | none => none
        | some (d, r3) =>
          match pSpaces1 r3 with
          | none => none
          | some r4 =>
            match matchFirstCI monthAbbrs r4 with
            | none => none
            | some (mo, r5) =>
              match pSpaces1 r5 with
              | none => none
              | some r6 =>
                match pYear4 r6 with
                | none => none
                | some (y, r7) => some (y, mo, d, r7)

/-- Match the time half of the blast timestamp format: hour, colon,
minute, colon, second, blank, literal minus sign, microsecond digits.
Yields hour, minute, second, microsecond and the rest of the input. -/
def pstTime (cs : List Char) : Option (Nat × Nat × Nat × Nat × List Char) :=
  match pHour cs with
  | none => none
  | some (h, r0) =>
    match expectChar ':' r0 with
    | none => none
    | some r1 =>
      match pMinute r1 with
      | none => none
      | some (mi, r2) =>
        match expectChar ':' r2 with
        | none => none
        | some r3 =>
          match pSecond r3 with
          | none => none
          | some (sec, r4) =>
            match pSpaces1 r4 with
            | none => none
            | some r5 =>
              match expectChar '-' r5 with
              | none => none
              | some r6 =>
                match pMicro r6 with
                | none => none
                | some (us, r7) => some (h, mi, sec, us, r7)

/-- Python `datetime.strptime(s, composed of directives a, d, b, Y, H,
M, S and f)` with the exact format string the script passes at its
campaign-loop date parse, returning `none` where Python raises
ValueError.  The final checks mirror the `datetime` constructor: year
at least MINYEAR, day within the month, no leap second; hour, minute
and microsecond ranges are already enforced by the regex fragments. -/
def parseStartTime (s : String) : Option PyDateTime :=
  match pstDate s.toList with
  | none => none
  | some (y, mo, d, r) =>
    match pSpaces1 r with
    | none => none
    | some r0 =>
      match pstTime r0 with
      | none => none
      | some (h, mi, sec, us, r1) =>
        if r1.isEmpty ∧ 1 ≤ y ∧ d ≤ daysInMonth y mo ∧ sec ≤ 59 then
          some ⟨y, mo, d, h, mi, sec, us⟩
        else none

/-- Python `datetime.strptime(s, composed of directives B, d and Y)`
with the exact format string the script uses for `end_date`, returning
`none` where Python raises ValueError. -/
def parseEndDate (s : String) : Option PyDateTime :=
  match matchFirstCI monthFulls s.toList with
  | none => none
  | some (mo, r0) =>
    match pSpaces1 r0 with
    | none => none
    | some r1 =>
      match pDay r1 with
      | none => none
      | some (d, r2) =>
        match pSpaces1 r2 with
        | none => none
        | some r3 =>
          match pYear4 r3 with
          | none => none
          | some (y, r4) =>
            if r4.isEmpty ∧ 1 ≤ y ∧ d ≤ daysInMonth y mo then
              some ⟨y, mo, d, 0, 0, 0, 0⟩
            else none

/-- Microsecond count of the cutoff `strptime(end_date) - timedelta(days=7)`
the campaign loop compares against, `none` when `strptime` raises
ValueError or the subtraction underflows `datetime.min`
(OverflowError). -/
def cutoffMicros (end_date : String) : Option Int :=
  match parseEndDate end_date with
  | none => none
  | some dt =>
    let c := dt.toMicros - 7 * 86400000000
    if c < pyDatetimeMinMicros then none else some c

/-! ## Data model and effect traces -/

/-- One campaign/blast record of the response body list under key
blasts.  Only `blast_id` and `start_time` are inspected by the script;
`dump` is the string `json.dump` emits for the whole record, carried
opaquely since the record is passed through unmodified. -/
structure BlastRecord where
  blast_id : Nat
  start_time : String
  dump : String
  deriving DecidableEq, Repr

/-- Externally visible effects of a run, in program order. -/
inductive SEvent where
  | apiPost (action : String)
  | apiGet (action : String)
  | sleepSecs (n : Nat)
  | fileWrite (name content : String)
  | bqLoad (table srcFile : String)
  | rmtree
  deriving DecidableEq, Repr

/-- Exceptions a run can terminate with: `api` is
SailthruAPIException, `parse` is the ValueError out of `strptime`
(either a record's start time or the end date, including the
OverflowError of the cutoff subtraction), `streamEnd` is the
StopIteration out of `next` on an empty download, `loadFail` is a
failure of the warehouse load utility. -/
inductive PyErr where
  | api
  | parse
  | streamEnd
  | loadFail
  deriving DecidableEq, Repr

/-- How a run ends: normal return, propagated exception, or still
inside the unbounded polling loop when the modelling fuel runs out. -/
inductive RunResult where
  | ok
  | err (e : PyErr)
  | diverged
  deriving DecidableEq, Repr

/-! ## Blast export pipeline -/

/-- Environment for one `_send_blast_details_to_bq` call: whether the
job-submission POST succeeds, the `job_id` of its body (absent when
the provider declines the job), the status of the i-th GET job
response, the lines of the file at `export_url`, and whether the
warehouse load succeeds. -/
structure BlastEnv where
  postOk : Bool
  jobId : Option Nat
  status : Nat → String
  csvLines : List String
  loadOk : Bool

/-- Result of the status-polling while loop. -/
inductive PollRes where
  | completedAt (i : Nat)
  | raisedExpired
  | outOfFuel
  deriving DecidableEq, Repr

/-- The polling while loop of `_send_blast_details_to_bq`, entered
with response `i` already fetched: while its status is not completed,
sleep five seconds, fetch the next response, and raise if that fresh
response's status is expired.  Returns the new events and how the loop
ended; `fuel` bounds the number of iterations modelled, the code
itself has no bound. -/
def pollJob (st : Nat → String) : Nat → Nat → List SEvent × PollRes
  | i, 0 =>
    if st i = "completed" then ([], .completedAt i) else ([], .outOfFuel)
  | i, fuel + 1 =>
    if st i = "completed" then ([], .completedAt i)
    else if st (i + 1) = "expired" then
      ([.sleepSecs 5, .apiGet "job"], .raisedExpired)
    else
      (.sleepSecs 5 :: .apiGet "job" :: (pollJob st (i + 1) fuel).1,
       (pollJob st (i + 1) fuel).2)

/-- The line-by-line rewrite of the downloaded export: the header
gains a literal blast_id column name, every further line gains the
blast identifier itself. -/
def rewriteCsvLines (blast_id : String) : List String → List String
  | [] => []
  | h :: rest => ("blast_id," ++ h) :: rest.map (fun l => blast_id ++ "," ++ l)

/-- Newline-delimited file content: the chunks in order with exactly
one linefeed between consecutive chunks and none at the end. -/
def ndContent : List String → String
  | [] => ""
  | [d] => d
  | d :: rest => d ++ "\n" ++ ndContent rest

/-- The `_send_blast_details_to_bq` pipeline over an explicit
environment: submit the blast_query job, tolerate a missing job_id as
a silent return, poll until completed (raising if a polled response is
expired), rewrite the downloaded CSV with the blast_id column
prepended, and load it into table blast_(blast id) replacing prior
contents. -/
def sendBlastDetails (blast_id : String) (env : BlastEnv) (fuel : Nat) :
    RunResult × List SEvent :=
  if env.postOk = false then (.err .api, [.apiPost "job"])
  else
    match env.jobId with
    | none => (.ok, [.apiPost "job"])
    | some _ =>
      let ev0 : List SEvent := [.apiPost "job", .apiGet "job"]
      let pe := (pollJob env.status 0 fuel).1
      match (pollJob env.status 0 fuel).2 with
      | .outOfFuel => (.diverged, ev0 ++ pe)
      | .raisedExpired => (.err .api, ev0 ++ pe)
      | .completedAt _ =>
        match env.csvLines with
        | [] => (.err .streamEnd, ev0 ++ pe)
        | h :: rest =>
          let content := ndContent (rewriteCsvLines blast_id (h :: rest))
          let table := "sailthru_blasts.blast_" ++ blast_id
          let ev1 := ev0 ++ pe ++
            [.fileWrite "blast_export.csv" content,
             .bqLoad table "blast_export.csv"]
          if env.loadOk then (.ok, ev1) else (.err .loadFail, ev1)

/-! ## Campaign report pipeline -/

/-- Environment for one `_send_campaign_report` call: whether the GET
blast call succeeds, the record list of its body, and whether the
warehouse load succeeds. -/
structure CampaignEnv where
  fetchOk : Bool
  blasts : List BlastRecord
  loadOk : Bool

/-- A Python set of blast identifiers, modelled as a duplicate-free
list; `pyInsert` is `set.add`, and the list order stands in for the
set's arbitrary iteration order. -/
def pyInsert (x : Nat) (s : List Nat) : List Nat :=
  if x ∈ s then s else s ++ [x]

/-- Does the campaign loop add this record to the recent set: its
parsed start time is at or after the cutoff seven days before
`end_date`. -/
def isRecent (end_date : String) (r : BlastRecord) : Bool :=
  match parseStartTime r.start_time, cutoffMicros end_date with
  | some dt, some cut => cut ≤ dt.toMicros
  | _, _ => false

/-- The body of the campaign loop, iterating the records in response
order: parse the record's start time (ValueError aborts), compare it
against the cutoff recomputed from `end_date` (ValueError or
OverflowError aborts), add the blast_id to the set when at or after
the cutoff, append the record's serialization to the file, and a
linefeed when the record is not the last.  Returns the accumulated
set, the file content written so far, and whether the loop ran to
completion. -/
def campaignLoop (end_date : String) :
    List BlastRecord → List Nat → String → List Nat × String × Bool
  | [], s, c => (s, c, true)
  | r :: rest, s, c =>
    match parseStartTime r.start_time with
    | none => (s, c, false)
    | some dt =>
      match cutoffMicros end_date with
      | none => (s, c, false)
      | some cut =>
        let s1 := if cut ≤ dt.toMicros then pyInsert r.blast_id s else s
        let c1 := c ++ r.dump ++ (if rest.isEmpty then "" else "\n")
        campaignLoop end_date rest s1 c1

/-- The `_send_campaign_report` pipeline over an explicit environment:
fetch the blasts for the status and date range, run the loop above
while writing the newline-delimited JSON file, load it into the
campaigns table, and return the recent-blast set.  `start_date` is
passed to the remote API only and enters no local computation. -/
def sendCampaignReport (status start_date end_date : String) (env : CampaignEnv) :
    RunResult × List SEvent × Option (List Nat) :=
  if env.fetchOk = false then (.err .api, [.apiGet "blast"], none)
  else
    let L := campaignLoop end_date env.blasts [] ""
    let ev : List SEvent := [.apiGet "blast", .fileWrite "campaigns_export.json" L.2.1]
    if L.2.2 = false then (.err .parse, ev, none)
    else
      let ev1 := ev ++ [.bqLoad "sailthru_blasts.campaigns" "campaigns_export.json"]
      if env.loadOk then (.ok, ev1, some L.1) else (.err .loadFail, ev1, none)

/-! ## Orchestrator -/

/-- The three mutually exclusive CLI modes. -/
inductive RunMode where
  | blast (id : Nat)
  | campaigns (status start_date end_date : String)
  | exportAll (today : String)

/-- The daily-mode loop over the recent-blast set: export each blast
in turn, aborting the remaining iterations on the first propagated
error. -/
def runBlastLoop (envB : Nat → BlastEnv) (fuel : Nat) :
    List Nat → RunResult × List SEvent
  | [] => (.ok, [])
  | id :: rest =>
    if (sendBlastDetails (toString id) (envB id) fuel).1 = .ok then
      ((runBlastLoop envB fuel rest).1,
       (sendBlastDetails (toString id) (envB id) fuel).2 ++ (runBlastLoop envB fuel rest).2)
    else sendBlastDetails (toString id) (envB id) fuel

/-- The `__main__` block: dispatch on the mode, then remove the temp
directory.  The removal is the final statement of the block, not in
any try/finally, so it runs only when the dispatched work returned
normally; a propagated exception terminates the process before it. -/
def mainRun (mode : RunMode) (envC : CampaignEnv) (envB : Nat → BlastEnv)
    (fuel : Nat) : RunResult × List SEvent :=
  match mode with
  | .blast id =>
    let p := sendBlastDetails (toString id) (envB id) fuel
    if p.1 = .ok then (.ok, p.2 ++ [.rmtree]) else p
  | .campaigns status sd ed =>
    let p := sendCampaignReport status sd ed envC
    if p.1 = .ok then (.ok, p.2.1 ++ [.rmtree]) else (p.1, p.2.1)
  | .exportAll today =>
    let p := sendCampaignReport "sent" "January 1 2010" today envC
    if p.1 = .ok then
      let q := runBlastLoop envB fuel (p.2.2.getD [])
      if q.1 = .ok then (.ok, p.2.1 ++ q.2 ++ [.rmtree]) else (q.1, p.2.1 ++ q.2)
    else (p.1, p.2.1)

/-! ## Polling loop lemmas -/

theorem pollJob_events_mem (st : Nat → String) :
    ∀ fuel i, ∀ e ∈ (pollJob st i fuel).1,
      e = SEvent.sleepSecs 5 ∨ e = SEvent.apiGet "job" := by
  intro fuel
  induction fuel with
  | zero =>
    intro i e he
    by_cases h : st i = "completed" <;> simp [pollJob, h] at he
  | succ n ih =>
    intro i e he
    by_cases h1 : st i = "completed"
    · simp [pollJob, h1] at he
    · by_cases h2 : st (i + 1) = "expired"
      · simp [pollJob, h1, h2] at he
        tauto
      · simp [pollJob, h1, h2] at he
        rcases he with he | he | he
        · exact Or.inl he
        · exact Or.inr he
        · exact ih (i + 1) e he

theorem poll_events_not (st : Nat → String) (fuel i : Nat) (e : SEvent)
    (h5 : e ≠ SEvent.sleepSecs 5) (hg : e ≠ SEvent.apiGet "job") :
    e ∉ (pollJob st i fuel).1 := by
  intro hmem
  rcases pollJob_events_mem st fuel i e hmem with h | h
  · exact h5 h
  · exact hg h

theorem pollJob_raised_exists (st : Nat → String) :
    ∀ fuel i, (pollJob st i fuel).2 = .raisedExpired →
      ∃ j, i + 1 ≤ j ∧ st j = "expired" := by
  intro fuel
  induction fuel with
  | zero =>
    intro i h
    by_cases hc : st i = "completed" <;> simp [pollJob, hc] at h
  | succ n ih =>
    intro i h
    by_cases h1 : st i = "completed"
    · simp [pollJob, h1] at h
    · by_cases h2 : st (i + 1) = "expired"
      · exact ⟨i + 1, le_refl _, h2⟩
      · simp [pollJob, h1, h2] at h
        obtain ⟨j, hj1, hj2⟩ := ih (i + 1) h
        exact ⟨j, by omega, hj2⟩

theorem pollJob_raises (st : Nat → String) :
    ∀ fuel i j, i + 1 ≤ j → j ≤ i + fuel → st j = "expired" →
      (∀ m, i ≤ m → m < j → st m ≠ "completed") →
      (∀ m, i + 1 ≤ m → m < j → st m ≠ "expired") →
      (pollJob st i fuel).2 = .raisedExpired := by
  intro fuel
  induction fuel with
  | zero =>
    intro i j h1 h2 _ _ _
    omega
  | succ n ih =>
    intro i j h1 h2 hexp hnc hne
    have hci : st i ≠ "completed" := hnc i (le_refl i) (by omega)
    by_cases h2e : st (i + 1) = "expired"
    · simp [pollJob, hci, h2e]
    · have hj : i + 1 < j := by
        rcases Nat.lt_or_ge (i + 1) j with h | h
        · exact h
        · have hji : j = i + 1 := by omega
          rw [hji] at hexp
          exact absurd hexp h2e
      simp only [pollJob, if_neg hci, if_neg h2e]
      exact ih (i + 1) j (by omega) (by omega) hexp
        (fun m hm1 hm2 => hnc m (by omega) hm2)
        (fun m hm1 hm2 => hne m (by omega) hm2)

theorem pollJob_completedAt (st : Nat → String) :
    ∀ fuel i j, (pollJob st i fuel).2 = .completedAt j → st j = "completed" := by
  intro fuel
  induction fuel with
  | zero =>
    intro i j h
    by_cases hc : st i = "completed"
    · simp [pollJob, hc] at h
      rw [← h]
      exact hc
    · simp [pollJob, hc] at h
  | succ n ih =>
    intro i j h
    by_cases h1 : st i = "completed"
    · simp [pollJob, h1] at h
      rw [← h]
      exact h1
    · by_cases h2 : st (i + 1) = "expired"
      · simp [pollJob, h1, h2] at h
      · simp [pollJob, h1, h2] at h
        exact ih (i + 1) j h

theorem pollJob_completes (st : Nat → String) :
    ∀ fuel i j, i ≤ j → j ≤ i + fuel → st j = "completed" →
      (∀ m, i ≤ m → m < j → st m ≠ "completed") →
      (∀ m, i + 1 ≤ m → m < j → st m ≠ "expired") →
      (pollJob st i fuel).2 = .completedAt j ∧
      (pollJob st i fuel).1.count (SEvent.sleepSecs 5) = j - i ∧
      (pollJob st i fuel).1.count (SEvent.apiGet "job") = j - i := by
  intro fuel
  induction fuel with
  | zero =>
    intro i j h1 h2 hc _ _
    have hij : i = j := by omega
    subst hij
    simp [pollJob, hc]
  | succ n ih =>
    intro i j h1 h2 hc hnc hne
    by_cases hij : i = j
    · subst hij
      simp [pollJob, hc]
    · have hci : st i ≠ "completed" := hnc i (le_refl i) (by omega)
      have hlt : i + 1 ≤ j := by omega
      have h2e : st (i + 1) ≠ "expired" := by
        by_cases hij1 : i + 1 = j
        · rw [hij1, hc]
          decide
        · exact hne (i + 1) (le_refl _) (by omega)
      have ihr := ih (i + 1) j hlt (by omega) hc
        (fun m hm1 hm2 => hnc m (by omega) hm2)
        (fun m hm1 hm2 => hne m (by omega) hm2)
      refine ⟨?_, ?_, ?_⟩
      · simp only [pollJob, if_neg hci, if_neg h2e]
        exact ihr.1
      · simp only [pollJob, if_neg hci, if_neg h2e, List.count_cons]
        rw [ihr.2.1]
        simp
        omega
      · simp only [pollJob, if_neg hci, if_neg h2e, List.count_cons]
        rw [ihr.2.2]
        simp
        omega

theorem pollJob_diverges (st : Nat → String)
    (hq : ∀ m, st m ≠ "completed" ∧ st m ≠ "expired") :
    ∀ fuel i, (pollJob st i fuel).2 = .outOfFuel := by
  intro fuel
  induction fuel with
  | zero =>
    intro i
    simp [pollJob, (hq i).1]
  | succ n ih =>
    intro i
    simp [pollJob, (hq i).1, (hq (i + 1)).2, ih (i + 1)]

/-! ## Campaign loop lemmas -/

/-- The set the loop accumulates, as a fold over the records. -/
def recentIds (end_date : String) (l : List BlastRecord) (s : List Nat) : List Nat :=
  l.foldl (fun a r => if isRecent end_date r then pyInsert r.blast_id a else a) s

theorem pyInsert_mem (x : Nat) (s : List Nat) (id : Nat) :
    id ∈ pyInsert x s ↔ id ∈ s ∨ id = x := by
  by_cases h : x ∈ s
  · simp only [pyInsert, if_pos h]
    constructor
    · exact Or.inl
    · rintro (h1 | rfl)
      · exact h1
      · exact h
  · simp [pyInsert, if_neg h]

theorem recentIds_mem (end_date : String) :
    ∀ (l : List BlastRecord) (s : List Nat) (id : Nat),
      id ∈ recentIds end_date l s ↔
        id ∈ s ∨ ∃ r ∈ l, isRecent end_date r ∧ r.blast_id = id := by
  intro l
  induction l with
  | nil => simp [recentIds]
  | cons r rest ih =>
    intro s id
    simp only [recentIds, List.foldl_cons] at *
    by_cases hr : isRecent end_date r
    · rw [if_pos hr, ih, pyInsert_mem]
      simp only [List.mem_cons]
      constructor
      · rintro ((h1 | rfl) | ⟨x, hx, hrx, hid⟩)
        · exact Or.inl h1
        · exact Or.inr ⟨r, Or.inl rfl, hr, rfl⟩
        · exact Or.inr ⟨x, Or.inr hx, hrx, hid⟩
      · rintro (h1 | ⟨x, hx | hx, hrx, hid⟩)
        · exact Or.inl (Or.inl h1)
        · subst hx
          exact Or.inl (Or.inr hid.symm)
        · exact Or.inr ⟨x, hx, hrx, hid⟩
    · rw [if_neg hr, ih]
      simp only [List.mem_cons]
      constructor
      · rintro (h1 | ⟨x, hx, hrx, hid⟩)
        · exact Or.inl h1
        · exact Or.inr ⟨x, Or.inr hx, hrx, hid⟩
      · rintro (h1 | ⟨x, hx | hx, hrx, hid⟩)
        · exact Or.inl h1
        · subst hx
          exact absurd hrx hr
        · exact Or.inr ⟨x, hx, hrx, hid⟩

theorem campaignLoop_cons (end_date : String) (r : BlastRecord)
    (rest : List BlastRecord) (s : List Nat) (c : String) (dt : PyDateTime)
    (cut : Int) (hdt : parseStartTime r.start_time = some dt)
    (hcut : cutoffMicros end_date = some cut) :
    campaignLoop end_date (r :: rest) s c =
      campaignLoop end_date rest
        (if cut ≤ dt.toMicros then pyInsert r.blast_id s else s)
        (c ++ r.dump ++ (if rest.isEmpty then "" else "\n")) := by
  simp only [campaignLoop, hdt, hcut]

theorem campaignLoop_run (end_date : String) (cut : Int)
    (hcut : cutoffMicros end_date = some cut) :
    ∀ (l : List BlastRecord) (s : List Nat) (c : String),
      (∀ r ∈ l, (parseStartTime r.start_time).isSome) →
      campaignLoop end_date l s c =
        (recentIds end_date l s, c ++ ndContent (l.map BlastRecord.dump), true) := by
  intro l
  induction l with
  | nil =>
    intro s c _
    simp [campaignLoop, recentIds, ndContent]
  | cons r rest ih =>
    intro s c hp
    obtain ⟨dt, hdt⟩ := Option.isSome_iff_exists.mp (hp r (by simp))
    have hrest : ∀ x ∈ rest, (parseStartTime x.start_time).isSome :=
      fun x hx => hp x (by simp [hx])
    have hset : (if cut ≤ dt.toMicros then pyInsert r.blast_id s else s) =
        (if isRecent end_date r then pyInsert r.blast_id s else s) := by
      have hrec : isRecent end_date r = decide (cut ≤ dt.toMicros) := by
        simp [isRecent, hdt, hcut]
      rw [hrec]
      by_cases hc : cut ≤ dt.toMicros
      · simp [hc]
      · simp [hc]
    rw [campaignLoop_cons end_date r rest s c dt cut hdt hcut, ih _ _ hrest, hset]
    have hsetc : recentIds end_date (r :: rest) s =
        recentIds end_date rest (if isRecent end_date r then pyInsert r.blast_id s else s) := rfl
    rw [hsetc]
    cases rest with
    | nil => simp [ndContent]
    | cons r2 rest2 => simp [ndContent, String.append_assoc]

theorem campaignLoop_fails (end_date : String) :
    ∀ (l : List BlastRecord) (s : List Nat) (c : String),
      (∃ r ∈ l, parseStartTime r.start_time = none) →
      (campaignLoop end_date l s c).2.2 = false := by
  intro l
  induction l with
  | nil =>
    intro s c h
    simp at h
  | cons r rest ih =>
    intro s c h
    rcases h with ⟨x, hx, hpx⟩
    rcases List.mem_cons.mp hx with rfl | hx2
    · simp [campaignLoop, hpx]
    · cases hdt : parseStartTime r.start_time with
      | none => simp [campaignLoop, hdt]
      | some dt =>
        cases hcut : cutoffMicros end_date with
        | none => simp [campaignLoop, hdt, hcut]
        | some cut =>
          simp only [campaignLoop, hdt, hcut]
          exact ih _ _ ⟨x, hx2, hpx⟩

theorem ndContent_count (ds : List String)
    (h : ∀ d ∈ ds, d.data.count '\n' = 0) :
    (ndContent ds).data.count '\n' = ds.length - 1 := by
  induction ds with
  | nil => simp [ndContent]
  | cons d rest ih =>
    cases rest with
    | nil => simp [ndContent, h d (by simp)]
    | cons e rest2 =>
      have hd := h d (by simp)
      have hr : ∀ x ∈ e :: rest2, x.data.count '\n' = 0 :=
        fun x hx => h x (by simp [hx])
      have hnd : ndContent (d :: e :: rest2) = d ++ "\n" ++ ndContent (e :: rest2) := rfl
      rw [hnd]
      simp only [String.data_append, List.count_append, hd, ih hr]
      have h1 : ("\n".data.count '\n') = 1 := rfl
      rw [h1]
      simp
      omega

/-! ## Temp-directory removal lemmas -/

theorem sendBlastDetails_no_rmtree (b : String) (env : BlastEnv) (fuel : Nat) :
    SEvent.rmtree ∉ (sendBlastDetails b env fuel).2 := by
  have hpoll := poll_events_not env.status fuel 0 SEvent.rmtree (by simp) (by simp)
  by_cases hp : env.postOk = false
  · simp [sendBlastDetails, hp]
  · cases hj : env.jobId with
    | none => simp [sendBlastDetails, hp, hj]
    | some jid =>
      cases hres : (pollJob env.status 0 fuel).2 with
      | outOfFuel =>
        simp only [sendBlastDetails, hp, hj, hres, if_false]
        simp [List.mem_append]
        exact hpoll
      | raisedExpired =>
        simp only [sendBlastDetails, hp, hj, hres, if_false]
        simp [List.mem_append]
        exact hpoll
      | completedAt k =>
        cases hcsv : env.csvLines with
        | nil =>
          simp only [sendBlastDetails, hp, hj, hres, hcsv, if_false]
          simp [List.mem_append]
          exact hpoll
        | cons hline rest =>
          by_cases hl : env.loadOk <;>
          · simp only [sendBlastDetails, hp, hj, hres, hcsv, hl, if_false]
            simp [List.mem_append]
            exact hpoll

theorem sendCampaignReport_no_rmtree (status start_date end_date : String)
    (env : CampaignEnv) :
    SEvent.rmtree ∉ (sendCampaignReport status start_date end_date env).2.1 := by
  by_cases hf : env.fetchOk = false
  · simp [sendCampaignReport, hf]
  · by_cases hloop : (campaignLoop end_date env.blasts [] "").2.2 = false
    · simp [sendCampaignReport, hf, hloop]
    · by_cases hl : env.loadOk <;> simp [sendCampaignReport, hf, hloop, hl]

theorem runBlastLoop_no_rmtree (envB : Nat → BlastEnv) (fuel : Nat) :
    ∀ ids : List Nat, SEvent.rmtree ∉ (runBlastLoop envB fuel ids).2 := by
  intro ids
  induction ids with
  | nil => simp [runBlastLoop]
  | cons id rest ih =>
    by_cases h : (sendBlastDetails (toString id) (envB id) fuel).1 = .ok
    · simp only [runBlastLoop, h, if_pos rfl]
      intro hm
      rcases List.mem_append.mp hm with hm1 | hm1
      · exact sendBlastDetails_no_rmtree _ _ _ hm1
      · exact ih hm1
    · simp only [runBlastLoop, if_neg h]
      exact sendBlastDetails_no_rmtree _ _ _

/-- Normal form of a fully successful campaign-report run. -/
theorem sendCampaignReport_ok (status start_date end_date : String)
    (env : CampaignEnv) (cut : Int)
    (hfetch : env.fetchOk = true) (hload : env.loadOk = true)
    (hcut : cutoffMicros end_date = some cut)
    (hparse : ∀ r ∈ env.blasts, (parseStartTime r.start_time).isSome) :
    sendCampaignReport status start_date end_date env =
      (.ok,
       [.apiGet "blast",
        .fileWrite "campaigns_export.json" (ndContent (env.blasts.map BlastRecord.dump)),
        .bqLoad "sailthru_blasts.campaigns" "campaigns_export.json"],
       some (recentIds end_date env.blasts [])) := by
  have hrun := campaignLoop_run end_date cut hcut env.blasts [] "" hparse
  simp [sendCampaignReport, hfetch, hrun, hload, String.empty_append]

/-! ## The claims -/

/-- C1 (amended): on a successful campaign-report run, an identifier is
in the returned recent-blast set if and only if some record bearing it
has parsed start time at or after the cutoff `end_date` minus seven
days (boundary included), so every record at or after the cutoff
contributes its identifier; the identifier of a record strictly before
the cutoff is absent provided no other record shares that identifier —
with pairwise distinct blast identifiers this is exactly the original
claim; and the result does not depend on `start_date`. -/
theorem campaignReport_recentSet_amended
    (status start_date end_date : String) (env : CampaignEnv) (cut : Int)
    (hfetch : env.fetchOk = true) (hload : env.loadOk = true)
    (hcut : cutoffMicros end_date = some cut)
    (hparse : ∀ r ∈ env.blasts, (parseStartTime r.start_time).isSome) :
    ∃ ev S, sendCampaignReport status start_date end_date env = (.ok, ev, some S) ∧
      (∀ id, id ∈ S ↔ ∃ r ∈ env.blasts, r.blast_id = id ∧
        ∃ dt, parseStartTime r.start_time = some dt ∧ cut ≤ dt.toMicros) ∧
      ((env.blasts.map BlastRecord.blast_id).Nodup →
        ∀ r ∈ env.blasts, ∀ dt, parseStartTime r.start_time = some dt →
          dt.toMicros < cut → r.blast_id ∉ S) ∧
      (∀ sd2, sendCampaignReport status sd2 end_date env =
        sendCampaignReport status start_date end_date env) := by
  refine ⟨_, _,
    sendCampaignReport_ok status start_date end_date env cut hfetch hload hcut hparse,
    ?_, ?_, fun sd2 => rfl⟩
  · intro id
    rw [recentIds_mem]
    simp only [List.not_mem_nil, false_or]
    constructor
    · rintro ⟨r, hr, hrec, hid⟩
      obtain ⟨dt, hdt⟩ := Option.isSome_iff_exists.mp (hparse r hr)
      refine ⟨r, hr, hid, dt, hdt, ?_⟩
      simp [isRecent, hdt, hcut] at hrec
      exact hrec
    · rintro ⟨r, hr, hid, dt, hdt, hcle⟩
      exact ⟨r, hr, by simp [isRecent, hdt, hcut, hcle], hid⟩
  · intro hnodup r hr dt hdt hlt hmem
    rw [recentIds_mem] at hmem
    simp only [List.not_mem_nil, false_or] at hmem
    obtain ⟨r2, hr2, hrec2, hid2⟩ := hmem
    have hr2r : r2 = r := List.inj_on_of_nodup_map hnodup hr2 hr hid2
    subst hr2r
    simp [isRecent, hdt, hcut] at hrec2
    omega

/-- Response list refuting C1 as stated: two records share blast
identifier 1, one starting January 8 (recent), one January 1 (before
the cutoff January 6). -/
def envC1x : CampaignEnv :=
  { fetchOk := true
    blasts := [⟨1, "Sun, 08 Jan 2017 00:00:00 -0000", "a"⟩,
               ⟨1, "Sun, 01 Jan 2017 00:00:00 -0000", "b"⟩]
    loadOk := true }

/-- C1 counterexample: the response holds a record whose parsed start
time is strictly before the cutoff, yet its blast identifier is in the
returned recent-blast set (another record with the same identifier is
recent), contradicting the claim that the set contains no identifier
of a record earlier than the cutoff. -/
theorem campaignReport_recentSet_cx :
    (sendCampaignReport "sent" "January 1 2017" "January 13 2017" envC1x).2.2 = some [1] ∧
    (⟨1, "Sun, 01 Jan 2017 00:00:00 -0000", "b"⟩ : BlastRecord) ∈ envC1x.blasts ∧
    parseStartTime "Sun, 01 Jan 2017 00:00:00 -0000" = some ⟨2017, 1, 1, 0, 0, 0, 0⟩ ∧
    cutoffMicros "January 13 2017" = some ((736335 : Int) * 86400000000) ∧
    (⟨2017, 1, 1, 0, 0, 0, 0⟩ : PyDateTime).toMicros < (736335 : Int) * 86400000000 ∧
    (1 : Nat) ∈ [1] := by
  decide

/-- Witness for C1 (amended) at a concrete environment. -/
theorem campaignReport_recentSet_amended_witness :
    ∃ ev S, sendCampaignReport "sent" "January 1 2017" "January 13 2017" envC1x =
        (.ok, ev, some S) ∧
      (∀ id, id ∈ S ↔ ∃ r ∈ envC1x.blasts, r.blast_id = id ∧
        ∃ dt, parseStartTime r.start_time = some dt ∧
          (736335 : Int) * 86400000000 ≤ dt.toMicros) := by
  obtain ⟨ev, S, h1, h2, _⟩ := campaignReport_recentSet_amended
    "sent" "January 1 2017" "January 13 2017" envC1x ((736335 : Int) * 86400000000)
    (by decide) (by decide) (by decide) (by decide)
  exact ⟨ev, S, h1, h2⟩

/-- Environment of C2: the two records of the claim (serializations
chosen arbitrarily, they do not enter the set computation). -/
def envC2 : CampaignEnv :=
  { fetchOk := true
    blasts := [⟨1, "Mon, 01 Jan 2017 00:00:00 -0000", "d1"⟩,
               ⟨2, "Mon, 08 Jan 2017 00:00:00 -0000", "d2"⟩]
    loadOk := true }

/-- C2 counterexample: on the claim's exact input the returned
recent-blast set is the singleton of blast 2 — blast 1 started January
1, twelve days before January 13, so it is not within the seven-day
window; there is no returned set containing both 1 and 2. -/
theorem campaignReport_jan13_cx :
    ¬ ∃ S, (sendCampaignReport "sent" "January 1 2017" "January 13 2017" envC2).2.2 =
        some S ∧ 1 ∈ S ∧ 2 ∈ S := by
  have hres : (sendCampaignReport "sent" "January 1 2017" "January 13 2017" envC2).2.2 =
      some [2] := by decide
  rintro ⟨S, hS, h1, h2⟩
  rw [hres] at hS
  injection hS with h
  rw [← h] at h1
  simp at h1

/-- C2 (amended): on the claim's two records with end date January 13
2017, the pipeline completes and returns the recent-blast set
containing exactly blast 2. -/
theorem campaignReport_jan13_amended :
    sendCampaignReport "sent" "January 1 2017" "January 13 2017" envC2 =
      (.ok,
       [.apiGet "blast", .fileWrite "campaigns_export.json" "d1\nd2",
        .bqLoad "sailthru_blasts.campaigns" "campaigns_export.json"],
       some [2]) ∧
    ∀ id, id ∈ [2] ↔ id = 2 := by
  constructor
  · decide
  · intro id
    simp

/-- C3: rewriting a downloaded CSV of one header line and N data lines
for blast id B yields exactly N plus one lines; the first is the
literal blast_id column name prepended to the header, and line k for
every k past the first is B prepended (with a comma) to the original
line k. -/
theorem blastCsvRewrite (B h : String) (ds : List String) :
    (rewriteCsvLines B (h :: ds)).length = ds.length + 1 ∧
    (rewriteCsvLines B (h :: ds))[0]? = some ("blast_id," ++ h) ∧
    ∀ k : Nat, (rewriteCsvLines B (h :: ds))[k + 1]? =
      (ds[k]?).map (fun l => B ++ "," ++ l) := by
  refine ⟨by simp [rewriteCsvLines], by simp [rewriteCsvLines], fun k => ?_⟩
  simp [rewriteCsvLines]

/-- C4 (amended): with a job submitted, a status response of expired
raises the ApiError exactly when it is observed by a poll inside the
while loop, that is by the second or a later status query; the first
query's response is tested only against completed, so a first response
of expired leads to a further poll rather than an error.  Polling
otherwise repeats, one five-second sleep per iteration, with no upper
bound, until a response has status completed. -/
theorem blastPolling_amended (b : String) (env : BlastEnv) (fuel : Nat)
    (hpost : env.postOk = true) (hjob : env.jobId.isSome) :
    ((sendBlastDetails b env fuel).1 = .err .api →
      ∃ i, 1 ≤ i ∧ env.status i = "expired") ∧
    (∀ i, 1 ≤ i → i ≤ fuel → env.status i = "expired" →
      (∀ k, k < i → env.status k ≠ "completed") →
      (∀ k, 1 ≤ k → k < i → env.status k ≠ "expired") →
      (sendBlastDetails b env fuel).1 = .err .api) ∧
    ((∀ i, env.status i = "queued") →
      ∀ f, (sendBlastDetails b env f).1 = .diverged) ∧
    (∀ n, n ≤ fuel → env.status n = "completed" →
      (∀ k, k < n → env.status k ≠ "completed") →
      (∀ k, 1 ≤ k → k < n → env.status k ≠ "expired") →
      (sendBlastDetails b env fuel).2.count (SEvent.sleepSecs 5) = n ∧
      (sendBlastDetails b env fuel).2.count (SEvent.apiGet "job") = n + 1) := by
  obtain ⟨jid, hj⟩ := Option.isSome_iff_exists.mp hjob
  refine ⟨?_, ?_, ?_, ?_⟩
  · intro h
    cases hres : (pollJob env.status 0 fuel).2 with
    | outOfFuel => simp [sendBlastDetails, hpost, hj, hres] at h
    | raisedExpired => exact pollJob_raised_exists env.status fuel 0 hres
    | completedAt k =>
      cases hcsv : env.csvLines with
      | nil => simp [sendBlastDetails, hpost, hj, hres, hcsv] at h
      | cons hline rest =>
        by_cases hl : env.loadOk <;>
          simp [sendBlastDetails, hpost, hj, hres, hcsv, hl] at h
  · intro i h1 hle he hnc hne
    have hraised : (pollJob env.status 0 fuel).2 = .raisedExpired :=
      pollJob_raises env.status fuel 0 i (by omega) (by omega) he
        (fun m _ hm2 => hnc m hm2)
        (fun m hm1 hm2 => hne m hm1 hm2)
    simp [sendBlastDetails, hpost, hj, hraised]
  · intro hqd f
    have hdiv : (pollJob env.status 0 f).2 = .outOfFuel :=
      pollJob_diverges env.status
        (fun m => by rw [hqd m]; exact ⟨by decide, by decide⟩) f 0
    simp [sendBlastDetails, hpost, hj, hdiv]
  · intro n hle hc hnc hne
    obtain ⟨hres, hcnt5, hcntg⟩ :=
      pollJob_completes env.status fuel 0 n (by omega) (by omega) hc
        (fun m _ hm2 => hnc m hm2)
        (fun m hm1 hm2 => hne m hm1 hm2)
    have hn5 : n - 0 = n := by omega
    rw [hn5] at hcnt5 hcntg
    cases hcsv : env.csvLines with
    | nil =>
      simp only [sendBlastDetails, hpost, hj, hres, hcsv]
      simp [List.count_append, List.count_cons, hcnt5, hcntg]
    | cons hline rest =>
      by_cases hl : env.loadOk <;>
      · simp only [sendBlastDetails, hpost, hj, hres, hcsv, hl]
        simp [List.count_append, List.count_cons, hcnt5, hcntg]

/-- Environment refuting C4 as stated: the very first status query
returns expired, the next returns completed. -/
def envC4x : BlastEnv :=
  { postOk := true
    jobId := some 9
    status := fun i => if i = 0 then "expired" else "completed"
    csvLines := ["h", "x"]
    loadOk := true }

/-- C4 counterexample: the very first status query after job
submission has status expired, yet the pipeline completes without any
error — the first response is never tested against expired. -/
theorem blastPolling_cx :
    envC4x.status 0 = "expired" ∧ (sendBlastDetails "1" envC4x 1).1 = .ok := by
  decide

/-- Witness environment for C4 (amended): queued, then expired. -/
def envC4w : BlastEnv :=
  { postOk := true
    jobId := some 9
    status := fun i => if i = 0 then "queued" else "expired"
    csvLines := ["h"]
    loadOk := true }

/-- Witness for C4 (amended): an expired status at the second query
raises the ApiError. -/
theorem blastPolling_amended_witness :
    (sendBlastDetails "1" envC4w 2).1 = .err .api :=
  (blastPolling_amended "1" envC4w 2 rfl rfl).2.1 1 (by decide) (by decide)
    (by decide)
    (fun k hk => by
      have hk0 : k = 0 := by omega
      subst hk0
      decide)
    (fun k hk1 hk2 => absurd (Nat.lt_of_le_of_lt hk1 hk2) (lt_irrefl 1))

/-- C5 (amended): the orchestrator removes the per-run temp directory
exactly on the success path — when the dispatched mode returns
normally, the removal is the final effect of the run and happens once;
when any error propagates (including a warehouse-load failure), the
process terminates without the removal being attempted, because the
removal is the last statement of the main block and not in a
try/finally. -/
theorem mainRun_cleanup_amended (mode : RunMode) (envC : CampaignEnv)
    (envB : Nat → BlastEnv) (fuel : Nat) :
    ((mainRun mode envC envB fuel).1 = .ok →
      ∃ ev0, (mainRun mode envC envB fuel).2 = ev0 ++ [SEvent.rmtree] ∧
        SEvent.rmtree ∉ ev0) ∧
    ((mainRun mode envC envB fuel).1 ≠ .ok →
      SEvent.rmtree ∉ (mainRun mode envC envB fuel).2) := by
  cases mode with
  | blast id =>
    by_cases h : (sendBlastDetails (toString id) (envB id) fuel).1 = .ok
    · refine ⟨fun _ => ⟨(sendBlastDetails (toString id) (envB id) fuel).2,
        by simp [mainRun, h], sendBlastDetails_no_rmtree _ _ _⟩,
        fun hne => absurd (by simp [mainRun, h]) hne⟩
    · refine ⟨fun hok => absurd (by simpa [mainRun, h] using hok) h, fun _ => ?_⟩
      simp only [mainRun, if_neg h]
      exact sendBlastDetails_no_rmtree _ _ _
  | campaigns status sd ed =>
    by_cases h : (sendCampaignReport status sd ed envC).1 = .ok
    · refine ⟨fun _ => ⟨(sendCampaignReport status sd ed envC).2.1,
        by simp [mainRun, h], sendCampaignReport_no_rmtree _ _ _ _⟩,
        fun hne => absurd (by simp [mainRun, h]) hne⟩
    · refine ⟨fun hok => absurd (by simpa [mainRun, h] using hok) h, fun _ => ?_⟩
      simp only [mainRun, if_neg h]
      exact sendCampaignReport_no_rmtree _ _ _ _
  | exportAll today =>
    by_cases hp : (sendCampaignReport "sent" "January 1 2010" today envC).1 = .ok
    · by_cases hq : (runBlastLoop envB fuel
          ((sendCampaignReport "sent" "January 1 2010" today envC).2.2.getD [])).1 = .ok
      · refine ⟨fun _ => ⟨(sendCampaignReport "sent" "January 1 2010" today envC).2.1 ++
            (runBlastLoop envB fuel
              ((sendCampaignReport "sent" "January 1 2010" today envC).2.2.getD [])).2,
          by simp [mainRun, hp, hq], ?_⟩,
          fun hne => absurd (by simp [mainRun, hp, hq]) hne⟩
        intro hm
        rcases List.mem_append.mp hm with hm1 | hm1
        · exact sendCampaignReport_no_rmtree _ _ _ _ hm1
        · exact runBlastLoop_no_rmtree _ _ _ hm1
      · refine ⟨fun hok => absurd (by simpa [mainRun, hp, hq] using hok) hq,
          fun _ => ?_⟩
        simp only [mainRun, if_pos hp, if_neg hq]
        intro hm
        rcases List.mem_append.mp hm with hm1 | hm1
        · exact sendCampaignReport_no_rmtree _ _ _ _ hm1
        · exact runBlastLoop_no_rmtree _ _ _ hm1
    · refine ⟨fun hok => absurd (by simpa [mainRun, hp] using hok) hp, fun _ => ?_⟩
      simp only [mainRun, if_neg hp]
      exact sendCampaignReport_no_rmtree _ _ _ _

/-- Blast environment whose warehouse load fails. -/
def envB5x : BlastEnv :=
  { postOk := true
    jobId := some 9
    status := fun _ => "completed"
    csvLines := ["h"]
    loadOk := false }

/-- A campaign environment that plays no role in blast mode. -/
def envC5x : CampaignEnv :=
  { fetchOk := true, blasts := [], loadOk := true }

/-- C5 counterexample: in single-blast mode with a failing warehouse
load, the error propagates and the temp directory is never removed —
no rmtree effect occurs on the failure path. -/
theorem mainRun_cleanup_cx :
    (mainRun (.blast 7) envC5x (fun _ => envB5x) 0).1 = .err .loadFail ∧
    SEvent.rmtree ∉ (mainRun (.blast 7) envC5x (fun _ => envB5x) 0).2 := by
  decide

/-- Witness for C5 (amended) on a successful single-blast run. -/
theorem mainRun_cleanup_amended_witness :
    ∃ ev0, (mainRun (.blast 7) envC5x (fun _ => { envB5x with loadOk := true }) 0).2 =
        ev0 ++ [SEvent.rmtree] ∧ SEvent.rmtree ∉ ev0 :=
  (mainRun_cleanup_amended (.blast 7) envC5x (fun _ => { envB5x with loadOk := true }) 0).1
    (by decide)

/-- C6: when the job-submission response carries no job_id, the blast
export pipeline returns normally and its whole effect trace is the one
submission POST: no further API calls, no file writes, no warehouse
loads. -/
theorem blastNoJobId (b : String) (env : BlastEnv) (fuel : Nat)
    (hpost : env.postOk = true) (hjob : env.jobId = none) :
    sendBlastDetails b env fuel = (.ok, [SEvent.apiPost "job"]) := by
  simp [sendBlastDetails, hpost, hjob]

/-- Witness environment for C6. -/
def envC6w : BlastEnv :=
  { postOk := true
    jobId := none
    status := fun _ => "completed"
    csvLines := ["h"]
    loadOk := true }

/-- Witness for C6 at a concrete environment. -/
theorem blastNoJobId_witness :
    sendBlastDetails "8" envC6w 5 = (.ok, [SEvent.apiPost "job"]) :=
  blastNoJobId "8" envC6w 5 rfl rfl

/-- C7: when the polled status sequence goes from queued to expired
without ever being completed, the pipeline raises the ApiError and no
warehouse load happens. -/
theorem blastQueuedExpired (b : String) (env : BlastEnv) (fuel i : Nat)
    (hpost : env.postOk = true) (hjob : env.jobId.isSome)
    (h1 : 1 ≤ i) (hle : i ≤ fuel)
    (hq : ∀ k, k < i → env.status k = "queued")
    (he : env.status i = "expired") :
    (sendBlastDetails b env fuel).1 = .err .api ∧
    ∀ t f, SEvent.bqLoad t f ∉ (sendBlastDetails b env fuel).2 := by
  obtain ⟨jid, hj⟩ := Option.isSome_iff_exists.mp hjob
  have hraised : (pollJob env.status 0 fuel).2 = .raisedExpired :=
    pollJob_raises env.status fuel 0 i (by omega) (by omega) he
      (fun m _ hm2 => by rw [hq m hm2]; decide)
      (fun m _ hm2 => by rw [hq m hm2]; decide)
  constructor
  · simp [sendBlastDetails, hpost, hj, hraised]
  · intro t f
    simp only [sendBlastDetails, hpost, hj, hraised]
    simp only [Bool.true_eq_false, if_false]
    intro hm
    rcases List.mem_append.mp hm with hm1 | hm1
    · simp at hm1
    · exact poll_events_not env.status fuel 0 _ (by simp) (by simp) hm1

/-- Witness environment for C7: queued then expired. -/
def envC7w : BlastEnv :=
  { postOk := true
    jobId := some 3
    status := fun i => if i = 0 then "queued" else "expired"
    csvLines := ["h"]
    loadOk := true }

/-- Witness for C7 at a concrete environment. -/
theorem blastQueuedExpired_witness :
    (sendBlastDetails "4" envC7w 2).1 = .err .api ∧
    ∀ t f, SEvent.bqLoad t f ∉ (sendBlastDetails "4" envC7w 2).2 :=
  blastQueuedExpired "4" envC7w 2 1 rfl rfl (by decide) (by decide)
    (fun k hk => by
      have hk0 : k = 0 := by omega
      subst hk0
      decide)
    (by decide)

/-- C8: on a successful fetch with well-formed timestamps, the
campaign pipeline writes the file whose content is every record's
serialization, unmodified and in input order, joined by exactly one
linefeed between consecutive records with none after the last; when no
serialization itself contains a linefeed, the content holds exactly
record-count minus one linefeed characters (three records give two). -/
theorem campaignNdjsonFile (status start_date end_date : String)
    (env : CampaignEnv) (cut : Int)
    (hfetch : env.fetchOk = true)
    (hcut : cutoffMicros end_date = some cut)
    (hparse : ∀ r ∈ env.blasts, (parseStartTime r.start_time).isSome) :
    SEvent.fileWrite "campaigns_export.json"
        (ndContent (env.blasts.map BlastRecord.dump)) ∈
      (sendCampaignReport status start_date end_date env).2.1 ∧
    ((∀ r ∈ env.blasts, r.dump.data.count '\n' = 0) →
      (ndContent (env.blasts.map BlastRecord.dump)).data.count '\n' =
        env.blasts.length - 1) := by
  constructor
  · have hrun := campaignLoop_run end_date cut hcut env.blasts [] "" hparse
    by_cases hl : env.loadOk <;>
      simp [sendCampaignReport, hfetch, hrun, hl, String.empty_append]
  · intro hnl
    have hd : ∀ d ∈ env.blasts.map BlastRecord.dump, d.data.count '\n' = 0 := by
      intro d hd
      obtain ⟨r, hr, rfl⟩ := List.mem_map.mp hd
      exact hnl r hr
    rw [ndContent_count _ hd, List.length_map]

/-- Witness environment for C8: three well-formed records. -/
def envC8w : CampaignEnv :=
  { fetchOk := true
    blasts := [⟨1, "Mon, 01 Jan 2017 00:00:00 -0000", "x"⟩,
               ⟨2, "Mon, 02 Jan 2017 03:04:05 -0000", "y"⟩,
               ⟨3, "Mon, 08 Jan 2017 00:00:00 -0000", "z"⟩]
    loadOk := true }

/-- Witness for C8: three records produce the file with exactly two
linefeed separators. -/
theorem campaignNdjsonFile_witness :
    SEvent.fileWrite "campaigns_export.json"
        (ndContent (envC8w.blasts.map BlastRecord.dump)) ∈
      (sendCampaignReport "sent" "January 1 2017" "January 13 2017" envC8w).2.1 ∧
    (ndContent (envC8w.blasts.map BlastRecord.dump)).data.count '\n' =
      envC8w.blasts.length - 1 := by
  have h := campaignNdjsonFile "sent" "January 1 2017" "January 13 2017" envC8w
    ((736335 : Int) * 86400000000) (by decide) (by decide) (by decide)
  exact ⟨h.1, h.2 (by decide)⟩

/-- C9: an API error on the campaigns fetch aborts the pipeline with
that error as its only effect is the failed call, and a record whose
start_time does not parse in the provider's fixed timestamp format
aborts the run with the ValueError; in both cases no warehouse load of
any subset happens and no recent-blast set is returned. -/
theorem campaignAborts (status start_date end_date : String) (env : CampaignEnv) :
    (env.fetchOk = false →
      sendCampaignReport status start_date end_date env =
        (.err .api, [SEvent.apiGet "blast"], none)) ∧
    (env.fetchOk = true →
      (∃ r ∈ env.blasts, parseStartTime r.start_time = none) →
      (sendCampaignReport status start_date end_date env).1 = .err .parse ∧
      (∀ t f, SEvent.bqLoad t f ∉
        (sendCampaignReport status start_date end_date env).2.1) ∧
      (sendCampaignReport status start_date end_date env).2.2 = none) := by
  constructor
  · intro hf
    simp [sendCampaignReport, hf]
  · intro hf hex
    have hfail : (campaignLoop end_date env.blasts [] "").2.2 = false :=
      campaignLoop_fails end_date env.blasts [] "" hex
    refine ⟨?_, ?_, ?_⟩
    · simp [sendCampaignReport, hf, hfail]
    · intro t f
      simp [sendCampaignReport, hf, hfail]
    · simp [sendCampaignReport, hf, hfail]

/-- Witness environment for C9: the second record's timestamp is
malformed. -/
def envC9w : CampaignEnv :=
  { fetchOk := true
    blasts := [⟨1, "Mon, 01 Jan 2017 00:00:00 -0000", "x"⟩,
               ⟨2, "not a timestamp", "y"⟩]
    loadOk := true }

/-- Witness for C9 at a concrete environment with a malformed
timestamp. -/
theorem campaignAborts_witness :
    (sendCampaignReport "sent" "January 1 2017" "January 13 2017" envC9w).1 =
      .err .parse ∧
    (∀ t f, SEvent.bqLoad t f ∉
      (sendCampaignReport "sent" "January 1 2017" "January 13 2017" envC9w).2.1) ∧
    (sendCampaignReport "sent" "January 1 2017" "January 13 2017" envC9w).2.2 = none :=
  (campaignAborts "sent" "January 1 2017" "January 13 2017" envC9w).2 rfl
    ⟨⟨2, "not a timestamp", "y"⟩, by decide, by decide⟩

/-- C10: the rewrite step presumes the download yields at least one
line: on an empty file at export_url the call to next raises
StopIteration, the pipeline fails with that uncaught exception, no
file content is written and no warehouse load happens. -/
theorem blastEmptyDownload (b : String) (env : BlastEnv) (fuel n : Nat)
    (hpost : env.postOk = true) (hjob : env.jobId.isSome)
    (hn : n ≤ fuel) (hc : env.status n = "completed")
    (hnc : ∀ k, k < n → env.status k ≠ "completed")
    (hne : ∀ k, 1 ≤ k → k < n → env.status k ≠ "expired")
    (hcsv : env.csvLines = []) :
    (sendBlastDetails b env fuel).1 = .err .streamEnd ∧
    (∀ t f, SEvent.bqLoad t f ∉ (sendBlastDetails b env fuel).2) ∧
    (∀ nm ct, SEvent.fileWrite nm ct ∉ (sendBlastDetails b env fuel).2) := by
  obtain ⟨jid, hj⟩ := Option.isSome_iff_exists.mp hjob
  obtain ⟨hres, -, -⟩ := pollJob_completes env.status fuel 0 n (by omega)
    (by omega) hc (fun m _ hm2 => hnc m hm2) (fun m hm1 hm2 => hne m hm1 hm2)
  refine ⟨?_, ?_, ?_⟩
  · simp [sendBlastDetails, hpost, hj, hres, hcsv]
  · intro t f
    simp only [sendBlastDetails, hpost, hj, hres, hcsv]
    simp only [Bool.true_eq_false, if_false]
    intro hm
    rcases List.mem_append.mp hm with hm1 | hm1
    · simp at hm1
    · exact poll_events_not env.status fuel 0 _ (by simp) (by simp) hm1
  · intro nm ct
    simp only [sendBlastDetails, hpost, hj, hres, hcsv]
    simp only [Bool.true_eq_false, if_false]
    intro hm
    rcases List.mem_append.mp hm with hm1 | hm1
    · simp at hm1
    · exact poll_events_not env.status fuel 0 _ (by simp) (by simp) hm1

/-- Witness environment for C10: the job completes at once but the
export file is empty. -/
def envC10w : BlastEnv :=
  { postOk := true
    jobId := some 6
    status := fun _ => "completed"
    csvLines := []
    loadOk := true }

/-- Witness for C10 at a concrete environment. -/
theorem blastEmptyDownload_witness :
    (sendBlastDetails "5" envC10w 0).1 = .err .streamEnd ∧
    (∀ t f, SEvent.bqLoad t f ∉ (sendBlastDetails "5" envC10w 0).2) ∧
    (∀ nm ct, SEvent.fileWrite nm ct ∉ (sendBlastDetails "5" envC10w 0).2) :=
  blastEmptyDownload "5" envC10w 0 0 rfl rfl (by decide) (by decide)
    (fun k hk => absurd hk (Nat.not_lt_zero k))
    (fun k _ hk2 => absurd hk2 (Nat.not_lt_zero k))
    rfl

end Sailthru
